import Mathlib

/-!
Verification of the polled push-button light-flasher state machine
(`PolledButtonBehavior` in `src/tests/state_machine.cpp`) and the
validity-check variants of the clarity example
(`Model` in `src/tests/clarity_example.cpp`).

The state machine is embedded shallowly: the mutable fields of the C++
objects (`PolledButtonBehavior::current_state`, `TestIO::light_value`,
`TestTimer::expired_value`) become a `Machine` record, a poll's button
snapshot (`IIO::button_pressed` / `IIO::button_released`, treated as
independently queried signals as the abstract interface allows) becomes
an `Input` record, and each side-effecting call (`IIO::set_light`,
`ITimer::reset`) is additionally recorded as an `Event` so that claims
about which effects a transition issues can be stated.  All `reset`
calls in the source pass the same duration `1.0`, and `TestTimer::reset`
ignores the duration, so `Event.resetTimer` carries no payload.
-/

/-- The C++ `enum class OnOff { On, Off }` from `state_machine.cpp`. -/
inductive OnOff
  | On
  | Off
  deriving DecidableEq, Repr, Fintype

/-- The helper `static OnOff toggle(OnOff value)` from
`state_machine.cpp`. -/
def toggle (value : OnOff) : OnOff :=
  if value = OnOff.On then OnOff.Off else OnOff.On

/-- The C++ `enum class PolledButtonBehavior::States`. -/
inductive States
  | NotPressed
  | BlinkOn
  | BlinkOff
  | ReleasedButton
  deriving DecidableEq, Repr, Fintype

/-- One side-effecting call issued by the engine to its collaborators:
`io.set_light(v)` or `timer.reset(1.0)`. -/
inductive Event
  | setLight (v : OnOff)
  | resetTimer
  deriving DecidableEq, Repr

/-- The mutable state of the engine together with its injected test
collaborators: `current_state` of `PolledButtonBehavior`,
`light_value` of `TestIO`, `expired_value` of `TestTimer`
(`TestTimer::reset` sets `expired_value = false`;
`TestTimer::expired()` returns it). -/
structure Machine where
  current_state : States
  light_value : OnOff
  expired_value : Bool
  deriving DecidableEq, Repr, Fintype

/-- The button snapshot a poll observes: the results of
`io.button_pressed()` and `io.button_released()`.  The engine queries
them through the abstract `IIO` interface, so they are modelled as
independent booleans; `TestIO` makes them complementary
(`button_released() = !button_pressed_value`). -/
structure Input where
  pressed : Bool
  released : Bool
  deriving DecidableEq, Repr, Fintype

/-- Result of one `handle_state()` call: the updated machine, the
returned boolean (`true` iff a transition occurred), and the list of
side-effecting calls issued during the call, in order. -/
structure HSOut where
  m : Machine
  moved : Bool
  events : List Event
  deriving DecidableEq, Repr

/-- The function `PolledButtonBehavior::handle_state()`, lines 158-206
of `state_machine.cpp`, as a function of the button snapshot and the
machine state.  Each branch mirrors the corresponding `case` of the
C++ `switch`, recording `set_light` / `timer.reset` calls as events. -/
def handle_state (inp : Input) (m : Machine) : HSOut :=
  match m.current_state with
  | States.NotPressed =>
      if inp.pressed then
        { m := { current_state := States.BlinkOn
                 light_value := OnOff.On
                 expired_value := false }
          moved := true
          events := [Event.setLight OnOff.On, Event.resetTimer] }
      else
        { m := m, moved := false, events := [] }
  | States.BlinkOn =>
      if inp.released then
        { m := { m with current_state := States.ReleasedButton }
          moved := true
          events := [] }
      else if m.expired_value then
        { m := { current_state := States.BlinkOff
                 light_value := OnOff.Off
                 expired_value := false }
          moved := true
          events := [Event.setLight OnOff.Off, Event.resetTimer] }
      else
        { m := m, moved := false, events := [] }
  | States.BlinkOff =>
      if inp.released then
        { m := { m with current_state := States.ReleasedButton }
          moved := true
          events := [] }
      else if m.expired_value then
        { m := { current_state := States.BlinkOn
                 light_value := OnOff.On
                 expired_value := false }
          moved := true
          events := [Event.setLight OnOff.On, Event.resetTimer] }
      else
        { m := m, moved := false, events := [] }
  | States.ReleasedButton =>
      { m := { m with current_state := States.NotPressed
                      light_value := OnOff.Off }
        moved := true
        events := [Event.setLight OnOff.Off] }

/-- The loop of `PolledButtonBehavior::do_work()`, lines 148-155:
repeatedly call `handle_state()` while it returns `true`.  The C++
loop is unbounded, so it is embedded with explicit fuel counting loop
iterations: `none` means the loop has not reached a `false` return
within `fuel` iterations.  The accumulated event list records every
side-effecting call issued during the `do_work()` call. -/
def do_work_fuel (inp : Input) : Nat → Machine → Option (Machine × List Event)
  | 0, m =>
      let r := handle_state inp m
      if r.moved then none else some (r.m, r.events)
  | n + 1, m =>
      let r := handle_state inp m
      if r.moved then
        match do_work_fuel inp n r.m with
        | some (m', evs) => some (m', r.events ++ evs)
        | none => none
      else
        some (r.m, r.events)

/-- Proposition: `do_work()` on snapshot `inp` from machine `m`
terminates with final machine `out.1`, having issued the side-effect
calls `out.2`. -/
def DoWorkE (inp : Input) (m : Machine) (out : Machine × List Event) : Prop :=
  ∃ n, do_work_fuel inp n m = some out

/-- A sequence of completed `do_work()` calls: `Run inps m m' evs`
holds when successively calling `do_work()` on the snapshots in `inps`
starting from machine `m` terminates each time, ends in machine `m'`,
and issues the side-effect calls `evs` in total. -/
inductive Run : List Input → Machine → Machine → List Event → Prop
  | nil (m : Machine) : Run [] m m []
  | cons {inp : Input} {inps : List Input} {m m₁ m₂ : Machine}
      {ev₁ ev₂ : List Event} :
      DoWorkE inp m (m₁, ev₁) → Run inps m₁ m₂ ev₂ →
      Run (inp :: inps) m m₂ (ev₁ ++ ev₂)

/-- The engine's initial configuration: `current_state = NotPressed`
(member initialiser, line 214), `TestIO::light_value = Off`,
`TestTimer::expired_value = false`. -/
def initMachine : Machine :=
  { current_state := States.NotPressed
    light_value := OnOff.Off
    expired_value := false }

/-- The final machine of a `do_work()` call on snapshot `inp` from
machine `m`, computed with fuel 3; whenever the snapshot does not have
both `pressed` and `released` true, fuel 3 suffices (proved below), so
on those snapshots this is the machine in which the C++ `do_work()`
loop actually leaves the engine. -/
def do_work_call (inp : Input) (m : Machine) : Machine :=
  ((do_work_fuel inp 3 m).map Prod.fst).getD m

/-- Setting `TestTimer::expired_value = true` by hand, as the test on
lines 247 and 253 does before calling `do_work()`. -/
def mark_expired (m : Machine) : Machine :=
  { m with expired_value := true }

/-- The machine after `n` repetitions of "mark the timer expired, then
call `do_work()` with the button held", starting from the machine in
which a press leaves the engine (`BlinkOn`, light on, timer armed). -/
def blink_iter : Nat → Machine
  | 0 => ⟨States.BlinkOn, OnOff.On, false⟩
  | n + 1 => do_work_call ⟨true, false⟩ (mark_expired (blink_iter n))

/-- Invariant carried across completed `do_work()` calls on
complementary snapshots: the engine never rests in `ReleasedButton`,
and the light is on exactly in `BlinkOn`. -/
def InvP (m : Machine) : Prop :=
  m.current_state ≠ States.ReleasedButton ∧
    (m.light_value = OnOff.On ↔ m.current_state = States.BlinkOn)

/-! ## The spec-side transition table (section 4.3) -/

/-- The transition table of spec section 4.3, read literally row by
row: for the current state, the first row whose condition holds gives
the actions of the "Action" column (in the order written) and the
"Next state" column.  Rows whose action column is "—" contribute no
action. -/
def table_row (inp : Input) (m : Machine) : List Event × States :=
  match m.current_state with
  | States.NotPressed =>
      if inp.pressed then
        ([Event.setLight OnOff.On, Event.resetTimer], States.BlinkOn)
      else
        ([], States.NotPressed)
  | States.BlinkOn =>
      if inp.released then
        ([], States.ReleasedButton)
      else if m.expired_value then
        ([Event.setLight OnOff.Off, Event.resetTimer], States.BlinkOff)
      else
        ([], States.BlinkOn)
  | States.BlinkOff =>
      if inp.released then
        ([], States.ReleasedButton)
      else if m.expired_value then
        ([Event.setLight OnOff.On, Event.resetTimer], States.BlinkOn)
      else
        ([], States.BlinkOff)
  | States.ReleasedButton =>
      ([Event.setLight OnOff.Off], States.NotPressed)

/-- Applying the actions of a table row to the collaborators:
"set light X" sets the light, "reset timer" clears the expiry
(spec section 4.2: `reset` clears any prior expiry). -/
def apply_events (m : Machine) (evs : List Event) : Machine :=
  evs.foldl
    (fun acc e =>
      match e with
      | Event.setLight v => { acc with light_value := v }
      | Event.resetTimer => { acc with expired_value := false })
    m

/-- One poll step as spec section 4.3 describes it: look up the table
row, apply its actions, move to its next state; the poll reports a
transition exactly when the row is not a "— (no transition this poll)"
row, i.e. when it has an action or changes the state. -/
def spec_step (inp : Input) (m : Machine) : HSOut :=
  let row := table_row inp m
  { m := { apply_events m row.1 with current_state := row.2 }
    moved := !(row.1.isEmpty && row.2 == m.current_state)
    events := row.1 }

/-! ## The clarity example (`src/tests/clarity_example.cpp`) -/

/-- The constant `const int NUM_OTHER_VALUES = 16;`. -/
def NUM_OTHER_VALUES : Nat := 16

/-- The private data of `class Model`: `poweron`, the three state
ints, and the sixteen-element `other_values` array (C++ `int` values
are modelled as `Int`; only comparison with zero matters here). -/
structure Model where
  poweron : Bool
  state1 : Int
  state2 : Int
  state3 : Int
  other_values : Fin NUM_OTHER_VALUES → Int

/-- The member `Model::statesValid()`: a state is valid if it is
non-zero. -/
def statesValid (m : Model) : Bool :=
  m.state1 != 0 && m.state2 != 0 && m.state3 != 0

/-- The member `Model::poweredOn()`. -/
def poweredOn (m : Model) : Bool :=
  m.poweron

/-- The member `Model::otherValuesNonZero()`: the range-for loop
returns `false` at the first zero entry, else `true`. -/
def otherValuesNonZero (m : Model) : Bool :=
  (List.finRange NUM_OTHER_VALUES).all fun i => m.other_values i != 0

/-- The member `Model::isValid()`, lines 54-57. -/
def isValid (m : Model) : Bool :=
  poweredOn m && statesValid m && otherValuesNonZero m

/-- The member `Model::isValidOld3()`, lines 61-75: early
`return false` on the power/states test, then an indexed loop
returning `false` at the first zero `other_values[i]`, else
`return true`. -/
def isValidOld3 (m : Model) : Bool :=
  if !m.poweron || m.state1 == 0 || m.state2 == 0 || m.state3 == 0 then
    false
  else if (List.finRange NUM_OTHER_VALUES).any fun i => m.other_values i == 0 then
    false
  else
    true

/-- The member `Model::isValidOld2()`, lines 79-95: a `valid` flag
initialised to `true`, cleared by the power/states test, then cleared
(with `break`) at the first zero `other_values[i]`; the flag is
returned. -/
def isValidOld2 (m : Model) : Bool :=
  let valid := true
  let valid :=
    if !m.poweron || m.state1 == 0 || m.state2 == 0 || m.state3 == 0 then
      false
    else valid
  let valid :=
    if (List.finRange NUM_OTHER_VALUES).any fun i => m.other_values i == 0 then
      false
    else valid
  valid

/-! ## Helper lemmas about the drain loop -/

/-- A `handle_state()` call that returns `false` leaves the machine
untouched and issues no side-effecting call. -/
lemma handle_state_stay (inp : Input) (m : Machine)
    (h : (handle_state inp m).moved = false) :
    (handle_state inp m).m = m ∧ (handle_state inp m).events = [] := by
  revert h
  revert inp m
  decide

/-- Unfolding equation for the base case of the fuelled drain loop. -/
lemma do_work_fuel_zero (inp : Input) (m : Machine) :
    do_work_fuel inp 0 m =
      if (handle_state inp m).moved then none
      else some ((handle_state inp m).m, (handle_state inp m).events) :=
  rfl

/-- Unfolding equation for the step case of the fuelled drain loop. -/
lemma do_work_fuel_step (inp : Input) (n : Nat) (m : Machine) :
    do_work_fuel inp (n + 1) m =
      if (handle_state inp m).moved then
        match do_work_fuel inp n (handle_state inp m).m with
        | some (m', evs) => some (m', (handle_state inp m).events ++ evs)
        | none => none
      else some ((handle_state inp m).m, (handle_state inp m).events) :=
  rfl

/-- More fuel does not change a result the drain loop already reached. -/
lemma do_work_fuel_succ (inp : Input) (n : Nat) (m : Machine)
    (out : Machine × List Event) (h : do_work_fuel inp n m = some out) :
    do_work_fuel inp (n + 1) m = some out := by
  induction n generalizing m out with
  | zero =>
      rw [do_work_fuel_zero] at h
      rw [do_work_fuel_step inp 0 m]
      cases hm : (handle_state inp m).moved with
      | false => simp only [hm, Bool.false_eq_true, if_false] at h ⊢; exact h
      | true => simp [hm] at h
  | succ k ih =>
      rw [do_work_fuel_step inp k m] at h
      rw [do_work_fuel_step inp (k + 1) m]
      cases hm : (handle_state inp m).moved with
      | false => simp only [hm, Bool.false_eq_true, if_false] at h ⊢; exact h
      | true =>
          simp only [hm, if_true] at h ⊢
          cases hr : do_work_fuel inp k (handle_state inp m).m with
          | none => rw [hr] at h; simp at h
          | some x => rw [hr] at h; rw [ih _ _ hr]; exact h

/-- Monotonicity of the fuelled drain loop in the fuel. -/
lemma do_work_fuel_le (inp : Input) {n k : Nat} (hnk : n ≤ k) (m : Machine)
    (out : Machine × List Event) (h : do_work_fuel inp n m = some out) :
    do_work_fuel inp k m = some out := by
  induction k with
  | zero => cases Nat.le_zero.mp hnk; exact h
  | succ j ih =>
      rcases Nat.lt_or_ge n (j + 1) with hlt | hge
      · exact do_work_fuel_succ inp j m out (ih (Nat.lt_succ_iff.mp hlt))
      · cases Nat.le_antisymm hnk hge; exact h

/-- Determinism of `do_work()`: any two terminating runs from the same
snapshot and machine agree. -/
lemma DoWorkE_det {inp : Input} {m : Machine} {out₁ out₂ : Machine × List Event}
    (h₁ : DoWorkE inp m out₁) (h₂ : DoWorkE inp m out₂) : out₁ = out₂ := by
  obtain ⟨n₁, hn₁⟩ := h₁
  obtain ⟨n₂, hn₂⟩ := h₂
  rcases Nat.le_total n₁ n₂ with h | h
  · have h' := do_work_fuel_le inp h m out₁ hn₁
    rw [h'] at hn₂
    exact Option.some.inj hn₂
  · have h' := do_work_fuel_le inp h m out₂ hn₂
    rw [h'] at hn₁
    exact (Option.some.inj hn₁).symm

/-- A stable machine (one whose `handle_state()` returns `false`) is a
fixed point of `do_work()`: the loop exits at once with no effects. -/
lemma DoWorkE_stable {inp : Input} {m : Machine} {out : Machine × List Event}
    (h : (handle_state inp m).moved = false) (hd : DoWorkE inp m out) :
    out = (m, []) := by
  obtain ⟨hm, he⟩ := handle_state_stay inp m h
  have h0 : do_work_fuel inp 0 m = some (m, []) := by
    rw [do_work_fuel_zero, h]
    simp [hm, he]
  exact DoWorkE_det hd ⟨0, h0⟩

/-- On a snapshot with both `button_pressed()` and `button_released()`
true, `handle_state()` makes a transition from every state. -/
lemma handle_state_bothTrue_moved (m : Machine) :
    (handle_state ⟨true, true⟩ m).moved = true := by
  revert m
  decide

/-- On a snapshot with both `button_pressed()` and `button_released()`
true, the `do_work()` loop never reaches a `false` return: no amount
of fuel produces a result, from any machine state. -/
lemma do_work_fuel_bothTrue (n : Nat) (m : Machine) :
    do_work_fuel ⟨true, true⟩ n m = none := by
  induction n generalizing m with
  | zero =>
      rw [do_work_fuel_zero, handle_state_bothTrue_moved m]
      simp
  | succ k ih =>
      rw [do_work_fuel_step, handle_state_bothTrue_moved m]
      simp [ih]

/-- On every snapshot that does not have both `pressed` and `released`
true, the drain loop finishes within three transitions, from any
machine state. -/
lemma do_work_fuel_three (inp : Input) (m : Machine)
    (h : ¬(inp.pressed = true ∧ inp.released = true)) :
    (do_work_fuel inp 3 m).isSome = true := by
  revert h
  revert inp m
  decide

/-- Any terminating `do_work()` run on a snapshot on which fuel 3
suffices ends in the machine `do_work_call` computes. -/
lemma DoWorkE_eq_call {inp : Input} {m : Machine} {out : Machine × List Event}
    (hterm : (do_work_fuel inp 3 m).isSome = true) (hd : DoWorkE inp m out) :
    out.1 = do_work_call inp m := by
  obtain ⟨x, hx⟩ := Option.isSome_iff_exists.mp hterm
  have hout : out = x := DoWorkE_det hd ⟨3, hx⟩
  rw [hout, do_work_call, hx]
  rfl

/-- A completed drain loop always ends in a stable machine: the result
of `do_work_fuel` satisfies a `false`-returning `handle_state()`. -/
lemma do_work_fuel_result_stable (inp : Input) (n : Nat) (m : Machine)
    (out : Machine × List Event) (h : do_work_fuel inp n m = some out) :
    (handle_state inp out.1).moved = false := by
  induction n generalizing m out with
  | zero =>
      rw [do_work_fuel_zero] at h
      cases hm : (handle_state inp m).moved with
      | true => rw [hm] at h; simp at h
      | false =>
          rw [hm] at h
          simp only [Bool.false_eq_true, if_false, Option.some.injEq] at h
          have hst := (handle_state_stay inp m hm).1
          rw [← h]
          simpa [hst] using hm
  | succ k ih =>
      rw [do_work_fuel_step] at h
      cases hm : (handle_state inp m).moved with
      | false =>
          rw [hm] at h
          simp only [Bool.false_eq_true, if_false, Option.some.injEq] at h
          have hst := (handle_state_stay inp m hm).1
          rw [← h]
          simpa [hst] using hm
      | true =>
          rw [hm] at h
          simp only [if_true] at h
          cases hr : do_work_fuel inp k (handle_state inp m).m with
          | none => rw [hr] at h; simp at h
          | some x =>
              obtain ⟨xm, xevs⟩ := x
              rw [hr] at h
              simp only [Option.some.injEq] at h
              have h1 : out.1 = xm := by rw [← h]
              rw [h1]
              exact ih _ (xm, xevs) hr

/-- From `ReleasedButton`, `handle_state()` transitions
unconditionally. -/
lemma handle_state_released_moved (inp : Input) (m : Machine)
    (h : m.current_state = States.ReleasedButton) :
    (handle_state inp m).moved = true := by
  revert h
  revert inp m
  decide

/-- In `NotPressed` with the button not pressed, `handle_state()` makes
no transition. -/
lemma handle_state_idle_stable (inp : Input) (l : OnOff) (e : Bool)
    (hp : inp.pressed = false) :
    (handle_state inp ⟨States.NotPressed, l, e⟩).moved = false := by
  revert hp
  revert inp l e
  decide

/-- One completed `do_work()` call on a complementary snapshot
preserves the light/state invariant. -/
lemma inv_call_step (inp : Input) (m : Machine)
    (hc : inp.released = !inp.pressed) (hi : InvP m) :
    InvP (do_work_call inp m) := by
  revert hc hi
  unfold InvP
  revert inp m
  decide

/-- A complementary snapshot never has both signals true. -/
lemma not_bothTrue_of_comp (inp : Input) (hc : inp.released = !inp.pressed) :
    ¬(inp.pressed = true ∧ inp.released = true) := by
  rcases inp with ⟨p, r⟩
  simp only [Input.released, Input.pressed] at hc ⊢
  subst hc
  cases p <;> simp

/-- The light/state invariant is preserved by any sequence of
completed `do_work()` calls on complementary snapshots. -/
lemma run_preserves_inv (inps : List Input) (m m' : Machine) (evs : List Event)
    (hc : ∀ i ∈ inps, i.released = !i.pressed) (hi : InvP m)
    (h : Run inps m m' evs) : InvP m' := by
  induction inps generalizing m evs with
  | nil => cases h; exact hi
  | cons i rest ih =>
      cases h with
      | cons hdw hrest =>
          have hci : i.released = !i.pressed := hc i (List.mem_cons_self i rest)
          have hterm := do_work_fuel_three i m (not_bothTrue_of_comp i hci)
          have h1 := DoWorkE_eq_call hterm hdw
          simp only at h1
          exact ih _ _ (fun j hj => hc j (List.mem_cons_of_mem _ hj))
            (h1 ▸ inv_call_step i m hci hi) hrest

/-! ## The claims -/

/-- C1: `handle_state` implements exactly the transition table of spec
section 4.3 for every state and every IO/timer snapshot — from
`NotPressed` a press turns the light on, resets the timer and moves to
`BlinkOn` (otherwise nothing happens); from `BlinkOn`/`BlinkOff` a
release moves to `ReleasedButton` and otherwise an expiry toggles the
light and resets the timer; from `ReleasedButton` the light is set off
and the state returns to `NotPressed`, unconditionally. -/
theorem handle_state_implements_transition_table :
    ∀ (inp : Input) (m : Machine), handle_state inp m = spec_step inp m := by
  decide

/-- C2 (counterexample): the claim quantifies over every snapshot in
which `button_released()` and `timer.expired()` are both true, but on
the snapshot that also has `button_pressed()` true the `do_work()`
call never returns at all — it cycles `BlinkOn → ReleasedButton →
NotPressed → BlinkOn → …` — so it does not end with the light off and
the state `NotPressed`. -/
theorem release_precedence_counterexample :
    ¬∃ out, DoWorkE ⟨true, true⟩ ⟨States.BlinkOn, OnOff.On, true⟩ out := by
  rintro ⟨out, n, h⟩
  rw [do_work_fuel_bothTrue] at h
  exact Option.noConfusion h

/-- C2 (amended): in `BlinkOn`/`BlinkOff`, release is checked strictly
before expiry, so on any snapshot with `button_released()` and
`timer.expired()` both true and `button_pressed()` false, a single
`do_work()` call terminates with the light off and the state
`NotPressed` (via `ReleasedButton`), issuing only the one
light-off command — never a blink toggle, never a timer reset. -/
theorem release_precedence (inp : Input) (m : Machine)
    (hp : inp.pressed = false) (hr : inp.released = true)
    (he : m.expired_value = true)
    (hs : m.current_state = States.BlinkOn ∨ m.current_state = States.BlinkOff) :
    DoWorkE inp m
      (⟨States.NotPressed, OnOff.Off, true⟩, [Event.setLight OnOff.Off]) := by
  refine ⟨2, ?_⟩
  rcases inp with ⟨p, r⟩
  rcases m with ⟨s, l, e⟩
  simp only [Input.pressed] at hp
  simp only [Input.released] at hr
  simp only [Machine.expired_value] at he
  simp only [Machine.current_state] at hs
  subst hp; subst hr; subst he
  rcases hs with rfl | rfl <;> cases l <;> decide

/-- Witness for the amended C2: from `BlinkOn` with light on, timer
expired and the button released, `do_work()` ends in `NotPressed` with
the light off, having issued exactly one light-off command. -/
theorem release_precedence_witness :
    DoWorkE ⟨false, true⟩ ⟨States.BlinkOn, OnOff.On, true⟩
      (⟨States.NotPressed, OnOff.Off, true⟩, [Event.setLight OnOff.Off]) :=
  release_precedence ⟨false, true⟩ ⟨States.BlinkOn, OnOff.On, true⟩
    rfl rfl rfl (Or.inl rfl)

/-- C3 (counterexample): the claim asserts termination of `do_work()`
for every snapshot, including those with `button_pressed()` and
`button_released()` both true; on such a snapshot, from the initial
state, the drain loop never reaches a `false`-returning
`handle_state()` — it cycles through `NotPressed → BlinkOn →
ReleasedButton → NotPressed → …` forever. -/
theorem do_work_bothTrue_never_returns :
    ¬∃ out, DoWorkE ⟨true, true⟩ initMachine out := by
  rintro ⟨out, n, h⟩
  rw [do_work_fuel_bothTrue] at h
  exact Option.noConfusion h

/-- C3 (amended): `handle_state()` always returns (it is a single
bounded case split, total by construction in this embedding), and
`do_work()` terminates on every IO/timer snapshot in which
`button_pressed()` and `button_released()` are not both true,
draining within at most three transitions from any state. -/
theorem do_work_terminates_of_not_bothTrue (inp : Input) (m : Machine)
    (h : ¬(inp.pressed = true ∧ inp.released = true)) :
    ∃ out, do_work_fuel inp 3 m = some out :=
  Option.isSome_iff_exists.mp (do_work_fuel_three inp m h)

/-- Witness for the amended C3: with the button held (and not
simultaneously released), `do_work()` from the initial state
terminates within three transitions. -/
theorem do_work_terminates_witness :
    ¬((Input.mk true false).pressed = true ∧
        (Input.mk true false).released = true) ∧
      ∃ out, do_work_fuel ⟨true, false⟩ 3 initMachine = some out :=
  ⟨by decide, do_work_terminates_of_not_bothTrue ⟨true, false⟩ initMachine
    (by decide)⟩

/-- C4: `do_work()` drains to a fixed point: whenever a `do_work()`
call returns, the machine it leaves is stable — an immediately
following `handle_state()` with the same inputs would return `false` —
and the resting state is never `ReleasedButton`. -/
theorem do_work_drains_to_fixed_point (inp : Input) (m : Machine)
    (out : Machine × List Event) (h : DoWorkE inp m out) :
    (handle_state inp out.1).moved = false ∧
      out.1.current_state ≠ States.ReleasedButton := by
  obtain ⟨n, hn⟩ := h
  have hstable := do_work_fuel_result_stable inp n m out hn
  refine ⟨hstable, fun hre => ?_⟩
  rw [handle_state_released_moved inp out.1 hre] at hstable
  exact Bool.noConfusion hstable

/-- Witness for C4: with the button up, `do_work()` from the initial
state returns at once, and the resting machine is stable and not in
`ReleasedButton`. -/
theorem do_work_drains_witness :
    (handle_state ⟨false, true⟩ initMachine).moved = false ∧
      initMachine.current_state ≠ States.ReleasedButton :=
  do_work_drains_to_fixed_point ⟨false, true⟩ initMachine
    (initMachine, []) ⟨0, by decide⟩

/-- C5: `handle_state()` returns `true` exactly when it performed a
state transition in that call, and `false` exactly when the current
state is stable — which happens only in `NotPressed` with the button
not pressed, or in `BlinkOn`/`BlinkOff` with neither release nor
expiry; a `false` return means nothing happened at all: no state
change, no light command, no timer reset. -/
theorem handle_state_true_iff_transition :
    ∀ (inp : Input) (m : Machine),
      ((handle_state inp m).moved = true ↔
        (handle_state inp m).m.current_state ≠ m.current_state) ∧
      ((handle_state inp m).moved = false ↔
        ((m.current_state = States.NotPressed ∧ inp.pressed = false) ∨
         ((m.current_state = States.BlinkOn ∨ m.current_state = States.BlinkOff) ∧
          inp.released = false ∧ m.expired_value = false))) ∧
      ((handle_state inp m).moved = false ↔
        handle_state inp m = ⟨m, false, []⟩) := by
  decide

/-- C6: starting in `NotPressed` with the button not pressed and the
light off, any number of `do_work()` calls leaves the state at
`NotPressed` with the light off and issues no side effect at all to
the IO port or the timer. -/
theorem idle_invariant (inps : List Input) (m' : Machine) (evs : List Event)
    (e : Bool) (hp : ∀ i ∈ inps, i.pressed = false)
    (h : Run inps ⟨States.NotPressed, OnOff.Off, e⟩ m' evs) :
    m' = ⟨States.NotPressed, OnOff.Off, e⟩ ∧ evs = [] := by
  induction inps generalizing evs with
  | nil =>
      cases h
      exact ⟨rfl, rfl⟩
  | cons i rest ih =>
      cases h with
      | cons hdw hrest =>
          have hip : i.pressed = false := hp i (List.mem_cons_self i rest)
          have hstable := handle_state_idle_stable i OnOff.Off e hip
          have heq := DoWorkE_stable hstable hdw
          rw [Prod.ext_iff] at heq
          obtain ⟨h1, h2⟩ := heq
          simp only at h1 h2
          subst h1
          obtain ⟨hm, hevs⟩ :=
            ih _ (fun j hj => hp j (List.mem_cons_of_mem _ hj)) hrest
          subst h2
          exact ⟨hm, by simp [hevs]⟩

/-- Witness for C6: one `do_work()` call with the button up leaves the
idle machine unchanged and issues nothing. -/
theorem idle_invariant_witness :
    (⟨States.NotPressed, OnOff.Off, false⟩ : Machine) =
        ⟨States.NotPressed, OnOff.Off, false⟩ ∧
      (([] : List Event) ++ []) = [] :=
  idle_invariant [⟨false, true⟩] ⟨States.NotPressed, OnOff.Off, false⟩
    ([] ++ []) false (by decide) (Run.cons ⟨0, by decide⟩ (Run.nil _))

/-- C7: with the button held and the timer marked expired immediately
before each `do_work()` call, each call performs exactly one blink
flip — from `BlinkOn` it sets the light off and resets the timer, and
from `BlinkOff` it sets the light on and resets the timer, each flip
clearing the expiry so that the drain loop stops after that one flip —
and therefore the state alternates `BlinkOn` ↔ `BlinkOff` and the
light alternates on/off over successive calls. -/
theorem blink_alternation :
    (∀ l : OnOff, do_work_fuel ⟨true, false⟩ 3 ⟨States.BlinkOn, l, true⟩ =
      some (⟨States.BlinkOff, OnOff.Off, false⟩,
        [Event.setLight OnOff.Off, Event.resetTimer])) ∧
    (∀ l : OnOff, do_work_fuel ⟨true, false⟩ 3 ⟨States.BlinkOff, l, true⟩ =
      some (⟨States.BlinkOn, OnOff.On, false⟩,
        [Event.setLight OnOff.On, Event.resetTimer])) ∧
    (∀ n : Nat, blink_iter n =
      if n % 2 = 0 then (⟨States.BlinkOn, OnOff.On, false⟩ : Machine)
      else ⟨States.BlinkOff, OnOff.Off, false⟩) := by
  refine ⟨by decide, by decide, ?_⟩
  intro n
  induction n with
  | zero => rfl
  | succ k ih =>
      rw [blink_iter, ih]
      rcases Nat.mod_two_eq_zero_or_one k with hk | hk
      · have hk1 : (k + 1) % 2 = 1 := by omega
        rw [hk1]
        simp only [hk, if_true, if_pos rfl]
        decide
      · have hk1 : (k + 1) % 2 = 0 := by omega
        rw [hk1]
        simp only [hk]
        norm_num
        decide

/-- C8: the `ReleasedButton → NotPressed` transition sets the light
off and changes nothing else — in particular it never resets the
timer, whose expiry flag passes through untouched — and across the
whole engine a timer reset is issued exactly on the press transition
out of `NotPressed` and on each blink-phase flip. -/
theorem released_button_frame :
    (∀ (inp : Input) (l : OnOff) (e : Bool),
      handle_state inp ⟨States.ReleasedButton, l, e⟩ =
        ⟨⟨States.NotPressed, OnOff.Off, e⟩, true, [Event.setLight OnOff.Off]⟩) ∧
    (∀ (inp : Input) (m : Machine),
      Event.resetTimer ∈ (handle_state inp m).events ↔
        ((m.current_state = States.NotPressed ∧ inp.pressed = true) ∨
         ((m.current_state = States.BlinkOn ∨ m.current_state = States.BlinkOff) ∧
          inp.released = false ∧ m.expired_value = true))) := by
  exact ⟨by decide, by decide⟩

/-- C9: starting from the initial engine state (`NotPressed`, light
off), after every completed `do_work()` call over any sequence of
snapshots with `pressed` and `released` complementary, the light is on
exactly when the resting state is `BlinkOn`; in particular in the
resting states `NotPressed` and `BlinkOff` the light is off. -/
theorem light_state_correspondence (inps : List Input) (m' : Machine)
    (evs : List Event) (hc : ∀ i ∈ inps, i.released = !i.pressed)
    (h : Run inps initMachine m' evs) :
    m'.light_value = OnOff.On ↔ m'.current_state = States.BlinkOn := by
  have hinit : InvP initMachine := by
    unfold InvP
    decide
  exact (run_preserves_inv inps initMachine m' evs hc hinit h).2

/-- Witness for C9: after a single `do_work()` call with the button
pressed (and released complementary), the engine rests in `BlinkOn`
with the light on, matching the correspondence. -/
theorem light_state_correspondence_witness :
    (⟨States.BlinkOn, OnOff.On, false⟩ : Machine).light_value = OnOff.On ↔
      (⟨States.BlinkOn, OnOff.On, false⟩ : Machine).current_state =
        States.BlinkOn :=
  light_state_correspondence [⟨true, false⟩] ⟨States.BlinkOn, OnOff.On, false⟩
    ([Event.setLight OnOff.On, Event.resetTimer] ++ []) (by decide)
    (Run.cons ⟨1, by decide⟩ (Run.nil _))

/-- C10: the three validity checks of the clarity example —
`isValid`, `isValidOld3` and `isValidOld2` — return the same boolean
for every `Model` state: power on, all three states non-zero, and all
sixteen `other_values` non-zero. -/
theorem isValid_variants_agree :
    ∀ m : Model, isValid m = isValidOld3 m ∧ isValid m = isValidOld2 m := by
  intro m
  unfold isValid isValidOld3 isValidOld2 poweredOn statesValid otherValuesNonZero
  cases hp : m.poweron <;>
    cases h1 : m.state1 == 0 <;>
    cases h2 : m.state2 == 0 <;>
    cases h3 : m.state3 == 0 <;>
    cases hA : (List.finRange NUM_OTHER_VALUES).any fun i => m.other_values i == 0 <;>
    simp [hp, h1, h2, h3, hA, List.all_eq_not_any_not, bne, Bool.not_not]
